import Mathlib

/-!
Verification of the extraction and normalization logic of the VandyVisor
repository: a shallow embedding of the Python string-processing code
(`scrape_class_sections.py`, `scrape_course_catalog.py`,
`convert_requirements_to_csv.py`, `extract_requirement_structure.py`,
`config/mappings`) together with proofs of the documented behaviour.

DOM access through BeautifulSoup is not string processing; pages are
modelled by the values the DOM queries return (heading text, table-cell
texts), while every regex, split, strip, truthiness test and lookup of the
Python code is embedded directly over `List Char` / `String`.
-/

/-! ## Basic Python string primitives -/

/-- Characters Python's `str.strip()` and `\s` treat as whitespace (ASCII part). -/
def pyIsSpace (c : Char) : Bool :=
  c = ' ' || c = '\t' || c = '\n' || c = '\r' || c = Char.ofNat 11 || c = Char.ofNat 12

/-- Python `s.strip(chars)` on a char list: remove characters of `set` from both ends. -/
def pyStripSet (set : List Char) (l : List Char) : List Char :=
  ((l.dropWhile (fun c => set.contains c)).reverse.dropWhile (fun c => set.contains c)).reverse

/-- Python `s.strip()` on a char list. -/
def pyStripList (l : List Char) : List Char :=
  (l.dropWhile pyIsSpace).reverse.dropWhile pyIsSpace |>.reverse

/-- Python `s.strip()` on a `String`. -/
def pyStrip (s : String) : String :=
  String.mk (pyStripList s.toList)

/-- Index of the first occurrence of `n` as a contiguous sublist of `h`
(Python `str.find` / the position located by `str.split(n, 1)`), `none` if absent. -/
def firstIdx (n : List Char) : List Char → Option Nat
  | [] => if n.isPrefixOf ([] : List Char) then some 0 else none
  | c :: t => if n.isPrefixOf (c :: t) then some 0 else (firstIdx n t).map (· + 1)

/-- Python's `n in h` substring test. -/
def substr (n h : String) : Bool :=
  (firstIdx n.toList h.toList).isSome

/-- The effect of one iteration of the keyword loop in `extract_requirement_text`
(`scrape_course_catalog.py` lines 76-78): `part.split(kw)[0]` when `kw` occurs
in `part`, otherwise `part` unchanged. -/
def truncAt (o p : List Char) : List Char :=
  match firstIdx o p with
  | none => p
  | some j => p.take j

/-- Two keywords cannot overlap in a text: no occurrence of `o1` can begin
strictly inside an occurrence of `o2`.  Decidable, checked per keyword pair. -/
@[reducible] def NoOverlap (o2 o1 : List Char) : Prop :=
  ∀ d, d < o2.length → 0 < d → ¬ o1 <+: o2.drop d ∧ ¬ o2.drop d <+: o1

/-- The smallest element of a list of naturals, `none` for the empty list. -/
def minNatList : List Nat → Option Nat
  | [] => none
  | a :: t =>
    match minNatList t with
    | none => some a
    | some b => some (min a b)

/-! ## The static lookup tables (`src/config/mappings`)

Python dictionaries with string keys are modelled as association lists looked
up with `List.lookup` (exact, case-sensitive key comparison; absent key gives
`none`, mirroring `dict.get` returning `None` — a total function, it cannot
raise). -/

/-- `school_mappings.py`, `SCHOOL_MAP`. -/
def SCHOOL_MAP : List (String × String) := [
  ("Allied Health", "AH"),
  ("Blair School of Music", "BLAIR"),
  ("College of Arts and Science", "A&S"),
  ("College of Connected Computing", "CCC"),
  ("Divinity School", "DIV"),
  ("Division Unclassified Studies", "DUS"),
  ("Fisk University", "FISK"),
  ("Graduate School", "GS"),
  ("Law School", "LAW"),
  ("Lipscomb", "LU"),
  ("Meharry Medical College", "MEHRY"),
  ("Owen Grad School of Management", "OGSM"),
  ("Peabody College", "PBDY"),
  ("School of Engineering", "ENGIN"),
  ("School of Medicine", "MED"),
  ("School of Nursing", "NURS"),
  ("Sewanee: The Univ of the South", "SEW"),
  ("Tennessee State University", "TSU"),
  ("Vanderbilt", "VANDY")]

/-- `career_mappings.py`, `CAREER_MAP`. -/
def CAREER_MAP : List (String × String) := [
  ("Consortium", "CN"),
  ("Distance Learning Programs", "DLP"),
  ("Div of Unclassified Studies", "DUS"),
  ("Divinity", "DIV"),
  ("Divinity Doctorate", "DD"),
  ("Engineering-Professional", "ENGP"),
  ("Graduate", "GRAD"),
  ("Law", "LAW"),
  ("Medical Doctor", "MEDD"),
  ("Medical Masters/Prof Doctoral", "MEDM"),
  ("Nursing", "NURS"),
  ("Owen Management", "GSM"),
  ("Peabody-Professional", "PBDP"),
  ("Undergraduate", "UGRD")]

/-- `component_mappings.py`, `COMPONENT_MAP`. -/
def COMPONENT_MAP : List (String × String) := [
  ("Art Studio", "STD"),
  ("Class", "CLS"),
  ("Clerkship", "CL"),
  ("Clinical", "CLN"),
  ("Directed Study", "DIR"),
  ("Discussion", "DSC"),
  ("Dissertation Research", "DIS"),
  ("Drill", "DRI"),
  ("Externship", "EXT"),
  ("Field Studies", "FLD"),
  ("Field Work", "FW"),
  ("Freshman Seminars", "FWS"),
  ("Independent Study", "IND"),
  ("Internship", "INT"),
  ("Laboratory", "LAB"),
  ("Lecture", "LEC"),
  ("Lecture and Discussion", "LDC"),
  ("Lecture and Lab", "LLB"),
  ("Lecture and Performance", "LPR"),
  ("Lecture-Tech Based Instruction", "LTI"),
  ("Masters Thesis Research", "THS"),
  ("Methods", "MTH"),
  ("Online Learning", "ONL"),
  ("Performance", "PER"),
  ("Practicum", "PRC"),
  ("Project", "PRJ"),
  ("Publications", "PUB"),
  ("Research", "RES"),
  ("Selected/Special Topics", "STP"),
  ("Seminar", "SEM"),
  ("Senior Scholar", "SSC"),
  ("Senior Thesis", "SRT"),
  ("Studies", "STU"),
  ("Subinternship", "SUB"),
  ("Supervision", "SUP"),
  ("Test 1", "TS1"),
  ("Test 2", "TS2"),
  ("Thesis Research", "THE")]

/-- Modelled from the spec: `subject_mappings.py` is imported by
`config/mappings/__init__.py` but is not among the sources; the spec (§3, §6)
says only that it is a static, case-sensitively keyed name→code table.  A
representative table is used; the lookup theorems hold for any table. -/
def SUBJECT_MAP : List (String × String) := [
  ("Computer Science", "CS"),
  ("Mathematics", "MATH")]

/-- Modelled from the spec: `attribute_mappings.py` is imported by
`config/mappings/__init__.py` but is not among the sources; the spec (§3, §6)
says only that it is a static, case-sensitively keyed label→code table.  A
representative table is used; the lookup theorems hold for any table. -/
def ATTRIBUTE_MAP : List (String × String) := [
  ("Eligible for Pass/Fail", "PF")]

/-- The five lookup categories of the Lookup Service (spec §4.1). -/
inductive LookupCategory where
  | school | career | component | subject | attribute
deriving DecidableEq, Repr

/-- The table of each category (`config/mappings/__init__.py` exports the five maps). -/
def tableOf : LookupCategory → List (String × String)
  | .school => SCHOOL_MAP
  | .career => CAREER_MAP
  | .component => COMPONENT_MAP
  | .subject => SUBJECT_MAP
  | .attribute => ATTRIBUTE_MAP

/-! ## Class-section extractor (`scrape_class_sections.py`) -/

/-- Character class `[A-Z]` of the header regex. -/
def isUpperAZ (c : Char) : Bool := 'A' ≤ c && c ≤ 'Z'

/-- Character class `[A-Z\d]` of the header regex. -/
def isUpperOrDigit (c : Char) : Bool := isUpperAZ c || c.isDigit

/-- The anchored-at-start match of `([A-Z]{2,6})-([A-Z\d]{4,6})-(\d{2})`
(Python `re.match`, a prefix match: text after the two section digits is
ignored).  Since `-` belongs to neither character class, the regex engine's
greedy-with-backtracking runs coincide with maximal runs followed by `-`. -/
def matchHeaderCode (cs : List Char) : Option (List Char × List Char × List Char) :=
  let a := cs.takeWhile isUpperAZ
  let r1 := cs.dropWhile isUpperAZ
  match r1 with
  | '-' :: r2 =>
    if 2 ≤ a.length ∧ a.length ≤ 6 then
      let b := r2.takeWhile isUpperOrDigit
      let r3 := r2.dropWhile isUpperOrDigit
      match r3 with
      | '-' :: c1 :: c2 :: _ =>
        if 4 ≤ b.length ∧ b.length ≤ 6 ∧ c1.isDigit ∧ c2.isDigit then
          some (a, b, [c1, c2])
        else none
      | _ => none
    else none
  | _ => none

/-- The parsed result of `parse_class_header`. -/
structure ClassHeader where
  subject : String
  catalog_number : String
  section_number : String
  display_name : String
  long_title : String
deriving DecidableEq, Repr

/-- `parse_class_header` (lines 32-61).  `re.split(r"\s*:\s*", header_text,
maxsplit=1)` followed by `.strip()` of both parts is, in net effect, the text
before the first colon stripped and the text after the first colon stripped
(the split may consume whitespace around the colon, but `.strip()` removes the
remainder of exactly those runs). -/
def parse_class_header (header_text : String) : Option ClassHeader :=
  let t := header_text.toList
  let left_part := pyStripList (t.takeWhile (fun c => !(c == ':')))
  let long_title :=
    match t.dropWhile (fun c => !(c == ':')) with
    | [] => ([] : List Char)
    | _ :: tl => pyStripList tl
  match matchHeaderCode left_part with
  | none => none
  | some (subject, catalog_number, section_number) =>
    some {
      subject := String.mk subject,
      catalog_number := String.mk catalog_number,
      section_number := String.mk section_number,
      display_name := String.mk (subject ++ '-' :: catalog_number),
      long_title := String.mk long_title }

/-- Nonempty all-digit run. -/
def digits1 (l : List Char) : Bool := !l.isEmpty && l.all Char.isDigit

/-- Unsigned float mantissa: `digits [. digits*]` or `. digits+`. -/
def isUnsignedFloat (l : List Char) : Bool :=
  let intPart := l.takeWhile Char.isDigit
  let rest := l.dropWhile Char.isDigit
  match rest with
  | [] => !intPart.isEmpty
  | '.' :: frac => frac.all Char.isDigit && (!intPart.isEmpty || !frac.isEmpty)
  | _ => false

/-- Optionally signed all-digit run (a float exponent). -/
def isSignedDigits (l : List Char) : Bool :=
  match l with
  | '+' :: t => digits1 t
  | '-' :: t => digits1 t
  | t => digits1 t

/-- Acceptance model of Python's `float(value)` (finite ASCII decimal
literals with optional sign and exponent; `inf`/`nan` spellings are not
modelled).  The claims under proof depend only on success versus
`ValueError`, never on the numeric value, so accepted values are kept as
their raw text. -/
def isPyFloat (s : String) : Bool :=
  let l0 := (s.toList.dropWhile pyIsSpace).reverse.dropWhile pyIsSpace |>.reverse
  let l :=
    match l0 with
    | '+' :: t => t
    | '-' :: t => t
    | t => t
  let mant := l.takeWhile (fun c => !(c == 'e') && !(c == 'E'))
  let rest := l.dropWhile (fun c => !(c == 'e') && !(c == 'E'))
  match rest with
  | [] => isUnsignedFloat mant
  | _ :: ex => isUnsignedFloat mant && isSignedDigits ex

/-- State of the label scan in `extract_class_details` (lines 79-99). -/
structure DetailCodes where
  school : Option String
  career : Option String
  component : Option String
  hours : Option String
deriving DecidableEq, Repr

/-- One row of the loop body of `extract_class_details`: rows with fewer than
two cells are skipped; the first cell stripped of colons selects which code to
(re)assign. -/
def detailStep (st : DetailCodes) (cells : List String) : DetailCodes :=
  match cells with
  | c0 :: c1 :: _ =>
    let label := c0.replace (":") ("")
    let value := c1
    if label = ("School") then { st with school := SCHOOL_MAP.lookup value }
    else if label = ("Career") then { st with career := CAREER_MAP.lookup value }
    else if label = ("Component") then { st with component := COMPONENT_MAP.lookup value }
    else if label = ("Hours") then
      { st with hours := if isPyFloat value then some value else none }
    else st
  | _ => st

/-- `extract_class_details` (lines 64-106).  The `detailPanel` div and its
`tr`/`td` structure are DOM values; the function receives the `get_text(strip=True)`
texts of each row's cells, or `none` when the page has no `detailPanel` div —
in which case the source returns the EMPTY dict `{}` (line 75-76), not a
record of null values. -/
def extract_class_details (panelRows : Option (List (List String))) : List (String × Option String) :=
  match panelRows with
  | none => []
  | some rows =>
    let st := rows.foldl detailStep ⟨none, none, none, none⟩
    [(("school_code"), st.school), (("career_code"), st.career),
     (("component_code"), st.component), (("units_earned"), st.hours)]

/-- A fetched class-section page, as seen through the DOM queries the code
performs: the raw body text (for the marker substring test), the
`get_text(separator=" ")` of the first `h1` if one exists, and the cell texts
of the `detailPanel` rows if that div exists. -/
structure ClassSectionPage where
  text : String
  h1 : Option String
  detailRows : Option (List (List String))
deriving DecidableEq, Repr

/-- Outcome of `requests.get`: a transport error / timeout / any exception
(all caught by the same `except` arms), or a response page. -/
inductive FetchOutcome where
  | err : FetchOutcome
  | ok : ClassSectionPage → FetchOutcome

/-- `scrape_class_section` (lines 109-161): any exception yields `None`; a body
without the `classSectionDetailDialog` marker, a missing `h1`, or an unparsable
header likewise yield `None`; otherwise the record is the six header-derived
entries merged with whatever `extract_class_details` returned (Python
`{**a, **b}` on disjoint keys = list append). -/
def scrape_class_section (fetch : FetchOutcome) (class_number : Nat) :
    Option (List (String × Option String)) :=
  match fetch with
  | .err => none
  | .ok page =>
    if !(substr ("classSectionDetailDialog") page.text) then none
    else
      match page.h1 with
      | none => none
      | some h1text =>
        let header_text := pyStrip h1text
        match parse_class_header header_text with
        | none => none
        | some parsed_header =>
          let class_details := extract_class_details page.detailRows
          some ([(("class_number"), some (toString class_number)),
                 (("display_name"), some parsed_header.display_name),
                 (("long_title"), some parsed_header.long_title),
                 (("subject"), some parsed_header.subject),
                 (("catalog_number"), some parsed_header.catalog_number),
                 (("section_number"), some parsed_header.section_number)] ++ class_details)

/-- The accumulation loop of `main` (lines 169-181): one scrape per id, a
record appended exactly when the scrape returned one. -/
def scanClassRange (fetch : Nat → FetchOutcome) (ids : List Nat) :
    List (List (String × Option String)) :=
  ids.filterMap (fun n => scrape_class_section (fetch n) n)

/-- The six always-present header-derived column keys of a class-section record. -/
def classHeaderKeys : List String :=
  ["class_number", "display_name", "long_title", "subject", "catalog_number", "section_number"]

/-- The full ten-column key set of the class-section table. -/
def classAllKeys : List String :=
  classHeaderKeys ++ ["school_code", "career_code", "component_code", "units_earned"]

/-- Spec-side shape predicate: the text BEGINS with `SUBJ-CAT-SEC` (subject
2-6 uppercase letters, catalog 4-6 uppercase alphanumerics, section 2
digits), trailing characters unconstrained. -/
def prefixShape (cs : List Char) : Prop :=
  ∃ a b c1 c2 rest, cs = a ++ '-' :: (b ++ '-' :: c1 :: c2 :: rest) ∧
    (∀ x ∈ a, isUpperAZ x = true) ∧ 2 ≤ a.length ∧ a.length ≤ 6 ∧
    (∀ x ∈ b, isUpperOrDigit x = true) ∧ 4 ≤ b.length ∧ b.length ≤ 6 ∧
    c1.isDigit = true ∧ c2.isDigit = true

/-- Spec-side shape predicate of the claim: the text IS exactly `SUBJ-CAT-SEC`
(subject 2-6 uppercase letters, catalog 4-6 uppercase alphanumerics, section
EXACTLY 2 digits, nothing further). -/
def strictShape (cs : List Char) : Prop :=
  ∃ a b c1 c2, cs = a ++ '-' :: (b ++ '-' :: [c1, c2]) ∧
    (∀ x ∈ a, isUpperAZ x = true) ∧ 2 ≤ a.length ∧ a.length ≤ 6 ∧
    (∀ x ∈ b, isUpperOrDigit x = true) ∧ 4 ≤ b.length ∧ b.length ≤ 6 ∧
    c1.isDigit = true ∧ c2.isDigit = true

/-- Executable check of `strictShape` (full-anchored variant of `matchHeaderCode`). -/
def strictCheck (cs : List Char) : Bool :=
  let a := cs.takeWhile isUpperAZ
  let r1 := cs.dropWhile isUpperAZ
  match r1 with
  | '-' :: r2 =>
    let b := r2.takeWhile isUpperOrDigit
    let r3 := r2.dropWhile isUpperOrDigit
    match r3 with
    | '-' :: c1 :: c2 :: rest =>
      decide (2 ≤ a.length) && decide (a.length ≤ 6) &&
      decide (4 ≤ b.length) && decide (b.length ≤ 6) &&
      c1.isDigit && c2.isDigit && rest.isEmpty
    | _ => false
  | _ => false

/-! ## Course-catalog extractor (`scrape_course_catalog.py`) -/

/-- The three keyword anchors, in the order the loop of
`extract_requirement_text` iterates them (line 76). -/
def kwCorequisite : String := "Corequisite:"

/-- The prerequisite keyword anchor. -/
def kwPrerequisite : String := "Prerequisite:"

/-- The anti-requisite keyword anchor. -/
def kwAntiRequisite : String := "Not open to students who have earned credit for"

/-- The loop list of `extract_requirement_text`. -/
def REQ_KEYWORDS : List String := [kwCorequisite, kwPrerequisite, kwAntiRequisite]

/-- Python `part.strip(":; ")`. -/
def stripColonSemiSpace (l : List Char) : List Char :=
  pyStripSet [':', ';', ' '] l

/-- `extract_requirement_text` (lines 59-80): `None` when the keyword is
absent; otherwise the text after the keyword's first occurrence, truncated in
turn at the first occurrence of each OTHER keyword present, then
`.strip(":; ").strip()`. -/
def extract_requirement_text (text keyword : String) : Option String :=
  match firstIdx keyword.toList text.toList with
  | none => none
  | some i =>
    let part0 := text.toList.drop (i + keyword.toList.length)
    let part := REQ_KEYWORDS.foldl
      (fun p other => if other = keyword then p else truncAt other.toList p) part0
    some (String.mk (pyStripList (stripColonSemiSpace part)))

/-- Spec-side restatement: the remaining text truncated at whichever of the
other two keywords occurs EARLIEST in it (no truncation when neither occurs),
then stripped the same way. -/
def extractSpec (text keyword : String) : Option String :=
  match firstIdx keyword.toList text.toList with
  | none => none
  | some i =>
    let part0 := text.toList.drop (i + keyword.toList.length)
    let others := REQ_KEYWORDS.filter (fun o => o != keyword)
    let idxs := others.filterMap (fun o => firstIdx o.toList part0)
    let part :=
      match minNatList idxs with
      | none => part0
      | some m => part0.take m
    some (String.mk (pyStripList (stripColonSemiSpace part)))

/-- The fixed check order of the term-offered decomposition
(`extract_course_details`, lines 154-165). -/
def TERM_TABLE : List (String × String) :=
  [("Fall", "FA"), ("Spring", "SP"), ("Summer", "SU"), ("Alternate Years", "ALT")]

/-- The term-offered decomposition of `extract_course_details` (lines 154-165):
four independent substring tests on the "Typically Offered" text, tokens
appended in the fixed code order and joined with `", "`. -/
def term_offered (term : String) : String :=
  let terms : List String :=
    (if substr ("Fall") term then [("FA" : String)] else []) ++
    (if substr ("Spring") term then [("SP" : String)] else []) ++
    (if substr ("Summer") term then [("SU" : String)] else []) ++
    (if substr ("Alternate Years") term then [("ALT" : String)] else [])
  String.intercalate (", ") terms

/-- Spec-side restatement of the term decomposition: filter the fixed table by
substring containment, join the codes. -/
def term_offered_spec (term : String) : String :=
  String.intercalate (", ") ((TERM_TABLE.filter (fun p => substr p.1 term)).map Prod.snd)

/-- The apostrophe character (U+0027). -/
def apos : Char := Char.ofNat 39

/-- The literal head of the `showCourseDetail` pattern (line 38), up to and
including the opening quote of the course id. -/
def litShowCourse : List Char :=
  ("YAHOO.mis.student.CourseDetailPanel.showCourseDetail(").toList ++ [apos]

/-- The literal between the two captured digit groups of the pattern: quote,
comma, space, quote. -/
def litMid : List Char := [apos] ++ (", ").toList ++ [apos]

/-- The literal tail of the pattern: quote, `, notificationString);`. -/
def litEnd : List Char := [apos] ++ (", notificationString);").toList

/-- The literal head of the notification pattern (line 39), up to and including
the opening quote. -/
def litNotifPrefix : List Char := ("var notificationString = ").toList ++ [apos]

/-- One anchored attempt of the `showCourseDetail\('(\d+)', '(\d+)',
notificationString\);` pattern: literals and nonempty greedy digit runs (the
character after each run is a quote, not a digit, so greedy matching is the
maximal run).  Returns the two captures and the number of characters consumed. -/
def tryCourseDetail (l : List Char) : Option ((List Char × List Char) × Nat) :=
  if litShowCourse.isPrefixOf l then
    let r1 := l.drop litShowCourse.length
    let cid := r1.takeWhile Char.isDigit
    let r2 := r1.dropWhile Char.isDigit
    if cid.isEmpty then none
    else if litMid.isPrefixOf r2 then
      let r3 := r2.drop litMid.length
      let onum := r3.takeWhile Char.isDigit
      let r4 := r3.dropWhile Char.isDigit
      if onum.isEmpty then none
      else if litEnd.isPrefixOf r4 then
        some ((cid, onum),
          litShowCourse.length + cid.length + litMid.length + onum.length + litEnd.length)
      else none
    else none
  else none

/-- The lazy group `(.*?)` followed by a literal terminator: the group is the
shortest run, may contain any character except a newline (Python `.` without
`re.DOTALL`), and ends at the first occurrence of the terminator.  Returns the
group and the characters consumed (group plus terminator). -/
def lazyGroupTo (terminator : List Char) : List Char → Option (List Char × Nat)
  | [] => none
  | c :: t =>
    if terminator.isPrefixOf (c :: t) then some ([], terminator.length)
    else if c == '\n' then none
    else
      match lazyGroupTo terminator t with
      | none => none
      | some (g, n) => some (c :: g, n + 1)

/-- One anchored attempt of `var notificationString = '(.*?)';` (line 39). -/
def tryNotification (l : List Char) : Option (List Char × Nat) :=
  if litNotifPrefix.isPrefixOf l then
    match lazyGroupTo ([apos, ';']) (l.drop litNotifPrefix.length) with
    | none => none
    | some (g, n) => some (g, litNotifPrefix.length + n)
  else none

/-- Python `re.findall`: scan left to right, attempt an anchored match at each
position, emit the captures of each match and resume after its end (our
patterns always consume at least one character, so every step shortens the
text; `fuel`, set to the text length by the callers, makes the recursion
structural without ever running out). -/
def scanAll {α : Type} (f : List Char → Option (α × Nat)) : Nat → List Char → List α
  | 0, _ => []
  | _, [] => []
  | fuel + 1, c :: t =>
    match f (c :: t) with
    | some (v, n) => v :: scanAll f fuel ((c :: t).drop (max 1 n))
    | none => scanAll f fuel t

/-- Result of `\d+$` after the hyphen in the verification-code pattern: a
nonempty digit run reaching the end of the string (Python `$` also matches
just before one final newline). -/
def tailDigitsOk (l : List Char) : Bool :=
  let d := l.takeWhile Char.isDigit
  let r := l.dropWhile Char.isDigit
  !d.isEmpty && (r.isEmpty || r == ['\n'])

/-- The lazy scan of `re.match(r"^(.*?)-\d+$", ns)`: the shortest prefix
(newline-free) followed by a hyphen whose remaining text is all digits up to
the end. -/
def dvGo : List Char → List Char → Option (List Char)
  | _, [] => none
  | pre, c :: t =>
    if c == '-' && tailDigitsOk t then some pre.reverse
    else if c == '\n' then none
    else dvGo (c :: pre) t

/-- The verification-code derivation of `extract_course_ids` (lines 48-52):
`match.group(1)` of `^(.*?)-\d+$`, or `None` when the pattern does not match. -/
def deriveVerification (ns : String) : Option String :=
  (dvGo [] ns.toList).map String.mk

/-- One search-result candidate (the tuple built at line 54). -/
structure Candidate where
  course_id : String
  offer_num : String
  notification : Option String
  verification : Option String
deriving DecidableEq, Repr

/-- The `(course_id, offer_num)` captures of the `showCourseDetail` pattern
in document order (`re.findall(pattern, html)`, line 41). -/
def idsOf (html : String) : List (List Char × List Char) :=
  scanAll tryCourseDetail html.toList.length html.toList

/-- The notification-string captures in document order
(`re.findall(notification_pattern, html)`, line 42). -/
def nsOf (html : String) : List String :=
  (scanAll tryNotification html.toList.length html.toList).map String.mk

/-- The pairing loop of `extract_course_ids` (lines 44-54): the i-th id pair is
paired with the i-th notification when one exists (`notifications[i] if i <
len(notifications) else None`), and the verification code is derived from it. -/
def pairCandidates (ids : List (List Char × List Char)) (ns : List String) (i : Nat) :
    List Candidate :=
  match ids with
  | [] => []
  | (cid, onum) :: rest =>
    let n := ns[i]?
    { course_id := String.mk cid, offer_num := String.mk onum,
      notification := n, verification := n.bind deriveVerification }
      :: pairCandidates rest ns (i + 1)

/-- `extract_course_ids` (lines 28-56). -/
def extract_course_ids (html : String) : List Candidate :=
  pairCandidates (idsOf html) (nsOf html) 0

/-- The per-subject candidate loop of `main` (lines 232-249): a candidate whose
verification code differs from the subject code is skipped (`continue`);
otherwise the detail fetch-and-parse runs, modelled by `detail` — `none`
covering a failed fetch, a raised exception, and `extract_course_details`
returning `None` alike — and the row, when produced, is written in order. -/
def process_subject_candidates {α : Type} (detail : Candidate → Option α)
    (course_entries : List Candidate) (subject_code : String) : List α :=
  course_entries.filterMap
    (fun c => if c.verification = some subject_code then detail c else none)

/-- A concrete search-results body: two `showCourseDetail` matches but a single
notification string. -/
def sampleSearchHtml : String :=
  String.mk (litNotifPrefix ++ ("CS-1101").toList ++ [apos, ';'] ++
    litShowCourse ++ ("123").toList ++ litMid ++ ("1").toList ++ litEnd ++
    litShowCourse ++ ("456").toList ++ litMid ++ ("2").toList ++ litEnd)

/-! ## Requirement-structure normalizer
(`convert_requirements_to_csv.py`, `extract_requirement_structure.py`)

The nested JSON document is modelled structurally; scalar JSON values are
carried opaquely as strings (the converters copy them without inspection),
and optional fields are `Option`-valued exactly where the code uses `.get`. -/

/-- One entry of `coursesUsedToSatisfy`. -/
structure SatisfyingCourse where
  termTaken : Option String
  courseId : Option String
  unitsEarned : Option String
  unitsTaken : Option String
  longTitle : Option String
  grade : Option String
  sequence : Option String
  subject : Option String
  catalogNumber : Option String
  displayName : Option String
deriving DecidableEq, Repr

/-- One requirement line. `line.get("coursesUsedToSatisfy", [])` makes an
absent course list indistinguishable from an empty one. -/
structure RequirementLine where
  name : Option String
  description : Option String
  status : Option String
  unitsRequired : Option String
  unitsUsed : Option String
  unitsNeeded : Option String
  coursesUsedToSatisfy : List SatisfyingCourse
deriving DecidableEq, Repr

/-- One requirement. -/
structure Requirement where
  name : Option String
  requirementNumber : Option String
  entrySequence : Option String
  requirementLines : List RequirementLine
deriving DecidableEq, Repr

/-- One requirement group. -/
structure ReqGroup where
  name : Option String
  plan : Option String
  requirementGroupNumber : Option String
  entrySequence : Option String
  requirements : List Requirement
deriving DecidableEq, Repr

/-- One top-level object of the input document list. -/
structure TopDoc where
  requirementGroups : List ReqGroup
deriving DecidableEq, Repr

/-- The `shared_data` dict built once per requirement
(`convert_requirements_to_csv`, lines 125-129). -/
structure SharedData where
  group_name : String
  is_main_requirement : Bool
  requirement_name : Option String
deriving DecidableEq, Repr

/-- One detail-mode output row (the 18 CSV columns of `save_to_csv`). -/
structure Row where
  group_name : String
  is_main_requirement : Bool
  requirement_name : Option String
  description : Option String
  status : Option String
  units_required : Option String
  units_used : Option String
  units_needed : Option String
  term_taken : Option String
  course_id : Option String
  units_earned : Option String
  units_taken : Option String
  long_title : Option String
  grade : Option String
  sequence : Option String
  subject : Option String
  catalog_number : Option String
  display_name : Option String
deriving DecidableEq, Repr

/-- Python `bool(req_group.get("plan"))`: false for an absent plan and for the
empty string, true otherwise. -/
def mainFlag (req_group : ReqGroup) : Bool :=
  match req_group.plan with
  | none => false
  | some s => s != ""

/-- `process_requirement_line` (lines 37-97): one row per satisfying course
when the list is nonempty (`if courses:`), otherwise a single row whose ten
course fields are all null. -/
def process_requirement_line (shared_data : SharedData) (line : RequirementLine) : List Row :=
  match line.coursesUsedToSatisfy with
  | [] =>
    [{ group_name := shared_data.group_name,
       is_main_requirement := shared_data.is_main_requirement,
       requirement_name := shared_data.requirement_name,
       description := line.description,
       status := line.status,
       units_required := line.unitsRequired,
       units_used := line.unitsUsed,
       units_needed := line.unitsNeeded,
       term_taken := none, course_id := none, units_earned := none,
       units_taken := none, long_title := none, grade := none,
       sequence := none, subject := none, catalog_number := none,
       display_name := none }]
  | courses =>
    courses.map (fun course =>
      { group_name := shared_data.group_name,
        is_main_requirement := shared_data.is_main_requirement,
        requirement_name := shared_data.requirement_name,
        description := line.description,
        status := line.status,
        units_required := line.unitsRequired,
        units_used := line.unitsUsed,
        units_needed := line.unitsNeeded,
        term_taken := course.termTaken,
        course_id := course.courseId,
        units_earned := course.unitsEarned,
        units_taken := course.unitsTaken,
        long_title := course.longTitle,
        grade := course.grade,
        sequence := course.sequence,
        subject := course.subject,
        catalog_number := course.catalogNumber,
        display_name := course.displayName })

/-- `convert_requirements_to_csv` (lines 100-135): the nested accumulation
loops, `rows.extend` preserving order (= `List.bind`). -/
def convert_requirements_to_csv (json_data : List TopDoc) : List Row :=
  json_data.flatMap (fun requirement_group =>
    requirement_group.requirementGroups.flatMap (fun req_group =>
      req_group.requirements.flatMap (fun requirement =>
        let shared_data : SharedData := {
          group_name := req_group.name.getD ("Unnamed Requirement Group"),
          is_main_requirement := mainFlag req_group,
          requirement_name := requirement.name }
        requirement.requirementLines.flatMap
          (fun line => process_requirement_line shared_data line))))

/-- One structure-mode output row (the 12 CSV columns of
`extract_requirement_structure.py`). -/
structure StructRow where
  requirement_group_number : Option String
  entry_sequence : Option String
  requirement_number : Option String
  requirement_entry_sequence : Option String
  group_name : String
  is_main_requirement : Bool
  line_name : Option String
  description : Option String
  status : Option String
  units_required : Option String
  units_used : Option String
  units_needed : Option String
deriving DecidableEq, Repr

/-- `extract_requirement_structure` (lines 37-82): one row per requirement
line, structural metadata only. -/
def extract_requirement_structure (json_data : List TopDoc) : List StructRow :=
  json_data.flatMap (fun requirement_group =>
    requirement_group.requirementGroups.flatMap (fun req_group =>
      req_group.requirements.flatMap (fun requirement =>
        requirement.requirementLines.map (fun line =>
          { requirement_group_number := req_group.requirementGroupNumber,
            entry_sequence := req_group.entrySequence,
            requirement_number := requirement.requirementNumber,
            requirement_entry_sequence := requirement.entrySequence,
            group_name := req_group.name.getD ("Unnamed Requirement Group"),
            is_main_requirement := mainFlag req_group,
            line_name := line.name,
            description := line.description,
            status := line.status,
            units_required := line.unitsRequired,
            units_used := line.unitsUsed,
            units_needed := line.unitsNeeded }))))

/-- Spec-side row count: the sum over all requirement lines of
`max 1 (number of satisfying courses)`. -/
def reqTotalRowCount (json_data : List TopDoc) : Nat :=
  (json_data.map (fun requirement_group =>
    (requirement_group.requirementGroups.map (fun req_group =>
      (req_group.requirements.map (fun requirement =>
        (requirement.requirementLines.map (fun line =>
          max 1 line.coursesUsedToSatisfy.length)).sum)).sum)).sum)).sum

/-- The rows one requirement group contributes in detail mode: the two inner
loops of `convert_requirements_to_csv` for a single `req_group`.  The full
converter is, definitionally, the concatenation of these per-group row lists,
so every output row belongs to exactly one group's list. -/
def groupRows (req_group : ReqGroup) : List Row :=
  req_group.requirements.flatMap (fun requirement =>
    let shared_data : SharedData := {
      group_name := req_group.name.getD ("Unnamed Requirement Group"),
      is_main_requirement := mainFlag req_group,
      requirement_name := requirement.name }
    requirement.requirementLines.flatMap
      (fun line => process_requirement_line shared_data line))

/-- The rows one requirement group contributes in structure mode: the two
inner loops of `extract_requirement_structure` for a single `req_group`. -/
def groupStructRows (req_group : ReqGroup) : List StructRow :=
  req_group.requirements.flatMap (fun requirement =>
    requirement.requirementLines.map (fun line =>
      { requirement_group_number := req_group.requirementGroupNumber,
        entry_sequence := req_group.entrySequence,
        requirement_number := requirement.requirementNumber,
        requirement_entry_sequence := requirement.entrySequence,
        group_name := req_group.name.getD ("Unnamed Requirement Group"),
        is_main_requirement := mainFlag req_group,
        line_name := line.name,
        description := line.description,
        status := line.status,
        units_required := line.unitsRequired,
        units_used := line.unitsUsed,
        units_needed := line.unitsNeeded }))

/-! ## Properties of `firstIdx` and truncation -/

theorem firstIdx_hits_at {n h : List Char} {i : Nat}
    (hfi : firstIdx n h = some i) : n <+: h.drop i := by
  induction h generalizing i with
  | nil =>
    simp only [firstIdx] at hfi
    split at hfi
    · rename_i hp
      cases hfi
      simpa [List.isPrefixOf_iff_prefix] using hp
    · cases hfi
  | cons c t ih =>
    simp only [firstIdx] at hfi
    split at hfi
    · rename_i hp
      cases hfi
      simpa [List.isPrefixOf_iff_prefix] using hp
    · cases hfi' : firstIdx n t with
      | none => rw [hfi'] at hfi; cases hfi
      | some j =>
        rw [hfi'] at hfi
        simp only [Option.map_some'] at hfi
        cases hfi
        simpa using ih hfi'

theorem firstIdx_min {n h : List Char} {i : Nat}
    (hfi : firstIdx n h = some i) : ∀ j, j < i → ¬ n <+: h.drop j := by
  induction h generalizing i with
  | nil =>
    simp only [firstIdx] at hfi
    split at hfi
    · cases hfi; omega
    · cases hfi
  | cons c t ih =>
    simp only [firstIdx] at hfi
    split at hfi
    · cases hfi; omega
    · rename_i hp
      cases hfi' : firstIdx n t with
      | none => rw [hfi'] at hfi; cases hfi
      | some j =>
        rw [hfi'] at hfi
        simp only [Option.map_some'] at hfi
        cases hfi
        intro j' hj'
        cases j' with
        | zero =>
          simpa [List.isPrefixOf_iff_prefix] using hp
        | succ j'' =>
          have := ih hfi' j'' (by omega)
          simpa using this

theorem firstIdx_none {n h : List Char}
    (hfi : firstIdx n h = none) : ∀ j, ¬ n <+: h.drop j := by
  induction h with
  | nil =>
    simp only [firstIdx] at hfi
    split at hfi
    · cases hfi
    · rename_i hp
      intro j
      simpa [List.isPrefixOf_iff_prefix, List.drop_nil] using hp
  | cons c t ih =>
    simp only [firstIdx] at hfi
    split at hfi
    · cases hfi
    · rename_i hp
      cases hfi' : firstIdx n t with
      | none =>
        intro j
        cases j with
        | zero => simpa [List.isPrefixOf_iff_prefix] using hp
        | succ j' => simpa using ih hfi' j'
      | some j => rw [hfi'] at hfi; simp at hfi

theorem firstIdx_eq_some_iff {n h : List Char} {i : Nat} :
    firstIdx n h = some i ↔ (n <+: h.drop i ∧ ∀ j, j < i → ¬ n <+: h.drop j) := by
  constructor
  · intro hfi
    exact ⟨firstIdx_hits_at hfi, firstIdx_min hfi⟩
  · rintro ⟨hpre, hmin⟩
    cases hfi : firstIdx n h with
    | none => exact absurd hpre (firstIdx_none hfi i)
    | some i' =>
      rcases Nat.lt_trichotomy i i' with hlt | heq | hgt
      · exact absurd hpre (firstIdx_min hfi i hlt)
      · rw [heq]
      · exact absurd (firstIdx_hits_at hfi) (hmin i' hgt)

theorem prefix_take_iff {n l : List Char} {k : Nat} :
    n <+: l.take k ↔ (n <+: l ∧ n.length ≤ k) := by
  constructor
  · intro hp
    refine ⟨hp.trans ( List.take_prefix k l), ?_⟩
    have := hp.length_le
    simp only [List.length_take] at this
    omega
  · rintro ⟨hp, hk⟩
    obtain ⟨t, rfl⟩ := hp
    rw [List.take_append_eq_append_take, List.take_of_length_le (by omega)]
    exact ⟨t.take (k - n.length), rfl⟩

theorem firstIdx_take {n p : List Char} {m : Nat} (hn : 0 < n.length) :
    firstIdx n (p.take m) =
      match firstIdx n p with
      | some i => if i + n.length ≤ m then some i else none
      | none => none := by
  cases hfi : firstIdx n p with
  | none =>
    simp only
    cases hfi' : firstIdx n (p.take m) with
    | none => rfl
    | some j =>
      have hp := firstIdx_hits_at hfi'
      rw [List.drop_take] at hp
      have := prefix_take_iff.mp hp
      exact absurd this.1 (firstIdx_none hfi j)
  | some i =>
    simp only
    split
    · rename_i hle
      apply firstIdx_eq_some_iff.mpr
      constructor
      · rw [List.drop_take]
        exact prefix_take_iff.mpr ⟨firstIdx_hits_at hfi, by omega⟩
      · intro j hj hpre
        rw [List.drop_take] at hpre
        exact firstIdx_min hfi j hj (prefix_take_iff.mp hpre).1
    · rename_i hgt
      cases hfi' : firstIdx n (p.take m) with
      | none => rfl
      | some j =>
        have hp := firstIdx_hits_at hfi'
        rw [List.drop_take] at hp
        have hj := prefix_take_iff.mp hp
        have hji : ¬ j < i := fun hc => firstIdx_min hfi j hc hj.1
        have : i + n.length ≤ m := by
          have hge : i ≤ j := Nat.le_of_not_lt hji
          omega
        exact absurd this hgt

theorem no_interleave {p o1 o2 : List Char} {a b : Nat}
    (hno : NoOverlap o2 o1) (h1 : o1 <+: p.drop a) (h2 : o2 <+: p.drop b)
    (hab : b < a) (hba : a < b + o2.length) : False := by
  obtain ⟨t, ht⟩ := h2
  have hdrop : p.drop a = o2.drop (a - b) ++ t := by
    have : p.drop a = (p.drop b).drop (a - b) := by
      rw [List.drop_drop]
      congr 1
      omega
    rw [this, ← ht, List.drop_append_eq_append_drop]
    have h4 : a - b - o2.length = 0 := by omega
    rw [h4, List.drop_zero]
  rw [hdrop] at h1
  have h2' : o2.drop (a - b) <+: o2.drop (a - b) ++ t := ⟨t, rfl⟩
  have := List.prefix_or_prefix_of_prefix h1 h2'
  have hno' := hno (a - b) (by omega) (by omega)
  rcases this with h | h
  · exact hno'.1 h
  · exact hno'.2 h

theorem truncAt_truncAt {o1 o2 : List Char} (p : List Char)
    (h2 : 0 < o2.length) (hno : NoOverlap o2 o1) :
    truncAt o2 (truncAt o1 p) =
      match firstIdx o1 p, firstIdx o2 p with
      | none, none => p
      | some a, none => p.take a
      | none, some b => p.take b
      | some a, some b => p.take (min a b) := by
  cases hf1 : firstIdx o1 p with
  | none =>
    simp only [truncAt, hf1]
    cases hf2 : firstIdx o2 p <;> simp
  | some a =>
    simp only [truncAt, hf1]
    rw [firstIdx_take h2]
    cases hf2 : firstIdx o2 p with
    | none => simp
    | some b =>
      simp only
      by_cases hba : b < a
      · have hend : b + o2.length ≤ a := by
          by_contra hc
          exact no_interleave hno (firstIdx_hits_at hf1)
            (firstIdx_hits_at hf2) hba (by omega)
        rw [if_pos hend]
        show (p.take a).take b = p.take (min a b)
        rw [List.take_take]
        congr 1
        omega
      · have hge : a ≤ b := Nat.le_of_not_lt hba
        rw [if_neg (by omega)]
        show p.take a = p.take (min a b)
        congr 1
        omega

/-! ## Maximal-run lemmas and the header-shape characterizations -/

theorem takeWhile_append_cons {p : Char → Bool} (a : List Char) (d : Char) (t : List Char)
    (ha : ∀ x ∈ a, p x = true) (hd : p d = false) :
    (a ++ d :: t).takeWhile p = a ∧ (a ++ d :: t).dropWhile p = d :: t := by
  induction a with
  | nil => simp [List.takeWhile_cons, List.dropWhile_cons, hd]
  | cons x xs ih =>
    have hx : p x = true := ha x (by simp)
    have ih' := ih (fun y hy => ha y (by simp [hy]))
    simp [List.takeWhile_cons, List.dropWhile_cons, hx, ih'.1, ih'.2]

theorem matchHeaderCode_isSome_iff (cs : List Char) :
    (matchHeaderCode cs).isSome ↔ prefixShape cs := by
  constructor
  · intro h
    simp only [matchHeaderCode] at h
    split at h
    · rename_i r2 hr1
      split at h
      · rename_i hlen
        split at h
        · rename_i c1 c2 rest hr3
          split at h
          · rename_i hcond
            refine ⟨cs.takeWhile isUpperAZ, r2.takeWhile isUpperOrDigit, c1, c2, rest,
              ?_, ?_, hlen.1, hlen.2, ?_, hcond.1, hcond.2.1, hcond.2.2.1, hcond.2.2.2⟩
            · conv_lhs => rw [← List.takeWhile_append_dropWhile isUpperAZ cs]
              rw [hr1]
              congr 2
              conv_lhs => rw [← List.takeWhile_append_dropWhile isUpperOrDigit r2]
              rw [hr3]
            · intro x hx
              exact List.mem_takeWhile_imp hx
            · intro x hx
              exact List.mem_takeWhile_imp hx
          · simp at h
        · simp at h
      · simp at h
    · simp at h
  · rintro ⟨a, b, c1, c2, rest, rfl, ha, ha2, ha6, hb, hb4, hb6, hc1, hc2⟩
    have h1 := takeWhile_append_cons a '-' (b ++ '-' :: c1 :: c2 :: rest) ha (by decide)
    have h2 := takeWhile_append_cons b '-' (c1 :: c2 :: rest) hb (by decide)
    simp only [matchHeaderCode, h1.1, h1.2, h2.1, h2.2]
    simp [ha2, ha6, hb4, hb6, hc1, hc2]

theorem strictCheck_iff (cs : List Char) :
    strictCheck cs = true ↔ strictShape cs := by
  constructor
  · intro h
    simp only [strictCheck] at h
    split at h
    · rename_i r2 hr1
      split at h
      · rename_i c1 c2 rest hr3
        simp only [Bool.and_eq_true, decide_eq_true_eq, List.isEmpty_iff] at h
        obtain ⟨⟨⟨⟨⟨⟨ha2, ha6⟩, hb4⟩, hb6⟩, hc1⟩, hc2⟩, hrest⟩ := h
        subst hrest
        refine ⟨cs.takeWhile isUpperAZ, r2.takeWhile isUpperOrDigit, c1, c2,
          ?_, ?_, ha2, ha6, ?_, hb4, hb6, hc1, hc2⟩
        · conv_lhs => rw [← List.takeWhile_append_dropWhile isUpperAZ cs]
          rw [hr1]
          congr 2
          conv_lhs => rw [← List.takeWhile_append_dropWhile isUpperOrDigit r2]
          rw [hr3]
        · intro x hx
          exact List.mem_takeWhile_imp hx
        · intro x hx
          exact List.mem_takeWhile_imp hx
      · cases h
    · cases h
  · rintro ⟨a, b, c1, c2, rfl, ha, ha2, ha6, hb, hb4, hb6, hc1, hc2⟩
    have h1 := takeWhile_append_cons a '-' (b ++ '-' :: [c1, c2]) ha (by decide)
    have h2 := takeWhile_append_cons b '-' ([c1, c2]) hb (by decide)
    simp only [strictCheck, h1.1, h1.2, h2.1, h2.2]
    simp [ha2, ha6, hb4, hb6, hc1, hc2]

/-! ## Lookup-table lemmas -/

theorem lookup_eq_none_iff (l : List (String × String)) (a : String) :
    l.lookup a = none ↔ a ∉ l.map Prod.fst := by
  induction l with
  | nil => simp [List.lookup]
  | cons kv t ih =>
    obtain ⟨k, v⟩ := kv
    by_cases hk : a = k
    · subst hk
      simp [List.lookup_cons]
    · have hbeq : (a == k) = false := beq_eq_false_iff_ne.mpr hk
      simp only [List.lookup_cons, hbeq]
      simp [ih, hk]

theorem lookup_mem (l : List (String × String)) (a c : String)
    (h : l.lookup a = some c) : (a, c) ∈ l := by
  induction l with
  | nil => simp [List.lookup] at h
  | cons kv t ih =>
    obtain ⟨k, v⟩ := kv
    by_cases hk : a = k
    · subst hk
      simp only [List.lookup_cons, beq_self_eq_true] at h
      cases h
      simp
    · have hbeq : (a == k) = false := beq_eq_false_iff_ne.mpr hk
      simp only [List.lookup_cons, hbeq] at h
      simp [ih h]

/-! ## Requirement-normalizer lemmas -/

@[simp]
theorem process_requirement_line_length (shared_data : SharedData) (line : RequirementLine) :
    (process_requirement_line shared_data line).length =
      max 1 line.coursesUsedToSatisfy.length := by
  cases h : line.coursesUsedToSatisfy with
  | nil => simp [process_requirement_line, h]
  | cons c cs =>
    simp only [process_requirement_line, h, List.length_map, List.length_cons]
    omega

theorem process_requirement_line_is_main (shared_data : SharedData) (line : RequirementLine) :
    ∀ r ∈ process_requirement_line shared_data line,
      r.is_main_requirement = shared_data.is_main_requirement := by
  cases h : line.coursesUsedToSatisfy with
  | nil =>
    simp [process_requirement_line, h]
  | cons c cs =>
    simp only [process_requirement_line, h, List.mem_map]
    rintro r ⟨course, _, rfl⟩
    rfl

theorem convert_length_eq (json_data : List TopDoc) :
    (convert_requirements_to_csv json_data).length = reqTotalRowCount json_data := by
  simp [convert_requirements_to_csv, reqTotalRowCount, List.length_flatMap,
    Function.comp_def, process_requirement_line_length]

/-- C1: in detail mode, a requirement line with at least one satisfying course
emits one row per course (identical group/requirement/line metadata, the
course's own ten fields), a line with none emits exactly one row whose ten
course fields are all null, and the row count of a document is the sum over
its requirement lines of `max 1 (number of satisfying courses)`. -/
theorem C1_requirement_line_expansion :
    (∀ (shared_data : SharedData) (line : RequirementLine),
      (process_requirement_line shared_data line).length =
        max 1 line.coursesUsedToSatisfy.length) ∧
    (∀ (shared_data : SharedData) (line : RequirementLine),
      line.coursesUsedToSatisfy = [] →
      process_requirement_line shared_data line =
        [{ group_name := shared_data.group_name,
           is_main_requirement := shared_data.is_main_requirement,
           requirement_name := shared_data.requirement_name,
           description := line.description,
           status := line.status,
           units_required := line.unitsRequired,
           units_used := line.unitsUsed,
           units_needed := line.unitsNeeded,
           term_taken := none, course_id := none, units_earned := none,
           units_taken := none, long_title := none, grade := none,
           sequence := none, subject := none, catalog_number := none,
           display_name := none }]) ∧
    (∀ (shared_data : SharedData) (line : RequirementLine),
      line.coursesUsedToSatisfy ≠ [] →
      process_requirement_line shared_data line =
        line.coursesUsedToSatisfy.map (fun course =>
          { group_name := shared_data.group_name,
            is_main_requirement := shared_data.is_main_requirement,
            requirement_name := shared_data.requirement_name,
            description := line.description,
            status := line.status,
            units_required := line.unitsRequired,
            units_used := line.unitsUsed,
            units_needed := line.unitsNeeded,
            term_taken := course.termTaken,
            course_id := course.courseId,
            units_earned := course.unitsEarned,
            units_taken := course.unitsTaken,
            long_title := course.longTitle,
            grade := course.grade,
            sequence := course.sequence,
            subject := course.subject,
            catalog_number := course.catalogNumber,
            display_name := course.displayName })) ∧
    (∀ json_data : List TopDoc,
      (convert_requirements_to_csv json_data).length = reqTotalRowCount json_data) := by
  refine ⟨process_requirement_line_length, ?_, ?_, convert_length_eq⟩
  · intro shared_data line h
    simp [process_requirement_line, h]
  · intro shared_data line h
    cases hc : line.coursesUsedToSatisfy with
    | nil => exact absurd hc h
    | cons c cs => simp [process_requirement_line, hc]

theorem mainFlag_true_iff (g : ReqGroup) :
    mainFlag g = true ↔ ∃ s, g.plan = some s ∧ s ≠ "" := by
  cases hp : g.plan with
  | none => simp [mainFlag, hp]
  | some s => simp [mainFlag, hp, bne_iff_ne]

/-- C9: in both output modes the `is_main_requirement` flag of every row is
true exactly when the row's OWN requirement group carries a present, non-empty
`plan` field: each converter's output is, definitionally, the concatenation of
the per-group row lists (`groupRows` / `groupStructRows`), so every output row
is produced by exactly one group, and every row a group produces carries the
truthiness of that group's plan. -/
theorem C9_main_requirement_flag :
    (∀ g : ReqGroup, mainFlag g = true ↔ ∃ s, g.plan = some s ∧ s ≠ "") ∧
    (∀ json_data : List TopDoc,
      convert_requirements_to_csv json_data =
        json_data.flatMap (fun top => top.requirementGroups.flatMap groupRows)) ∧
    (∀ (g : ReqGroup) (r : Row), r ∈ groupRows g →
      (r.is_main_requirement = true ↔ ∃ s, g.plan = some s ∧ s ≠ "")) ∧
    (∀ json_data : List TopDoc,
      extract_requirement_structure json_data =
        json_data.flatMap (fun top => top.requirementGroups.flatMap groupStructRows)) ∧
    (∀ (g : ReqGroup) (r : StructRow), r ∈ groupStructRows g →
      (r.is_main_requirement = true ↔ ∃ s, g.plan = some s ∧ s ≠ "")) := by
  refine ⟨mainFlag_true_iff, fun json_data => rfl, ?_, fun json_data => rfl, ?_⟩
  · intro g r hr
    simp only [groupRows, List.mem_flatMap] at hr
    obtain ⟨req, hreq, line, hline, hr⟩ := hr
    have hflag := process_requirement_line_is_main _ _ r hr
    rw [hflag]
    exact mainFlag_true_iff g
  · intro g r hr
    simp only [groupStructRows, List.mem_flatMap, List.mem_map] at hr
    obtain ⟨req, hreq, line, hline, rfl⟩ := hr
    exact mainFlag_true_iff g

/-- C7: for every lookup category and label, the lookup returns the configured
code exactly when the label is a key of the category's table and the absent
marker (`none`) otherwise; being a total function it cannot raise.  (The
subject and attribute tables are modelled from the spec, their source file not
being part of the repository snapshot; the property is table-generic.) -/
theorem C7_lookup_service :
    (∀ (cat : LookupCategory) (label : String),
      ((tableOf cat).lookup label = none ↔ label ∉ (tableOf cat).map Prod.fst) ∧
      (∀ code, (tableOf cat).lookup label = some code → (label, code) ∈ tableOf cat)) ∧
    (tableOf LookupCategory.school).lookup ("Law School") = some ("LAW") ∧
    (tableOf LookupCategory.school).lookup ("No Such School") = none := by
  refine ⟨?_, by decide, by decide⟩
  intro cat label
  exact ⟨lookup_eq_none_iff _ _, fun code h => lookup_mem _ _ _ h⟩

/-! ## C2: the class-section header parser -/

/-- C2 counterexample: the header text `"CS-1101-011 : Intro"` has a pre-colon
part (`"CS-1101-011"`, a three-digit section) that does NOT have the strict
`SUBJ-CAT-SEC` shape, yet `parse_class_header` — built on the prefix-anchored
`re.match` — still returns a parsed result (section `"01"`, the trailing digit
ignored), contradicting the claim that any deviation yields no parse. -/
theorem C2_counterexample :
    parse_class_header ("CS-1101-011 : Intro") =
      some { subject := "CS", catalog_number := "1101", section_number := "01",
             display_name := "CS-1101", long_title := "Intro" } ∧
    pyStripList (("CS-1101-011 : Intro").toList.takeWhile (fun c => !(c == ':'))) =
      ("CS-1101-011").toList ∧
    ¬ strictShape (("CS-1101-011").toList) := by
  refine ⟨by decide, by decide, ?_⟩
  intro h
  exact absurd ((strictCheck_iff (("CS-1101-011").toList)).mpr h) (by decide)

/-- C2 (amended): the parser maps `"CS-1101-01 : Intro to Computing"` to the
stated fields and returns no parse exactly when the stripped part before the
first colon does not BEGIN with the `SUBJ-CAT-SEC` shape (subject 2-6
uppercase letters, catalog 4-6 uppercase alphanumerics, section 2 digits);
characters after the two section digits are ignored, since Python `re.match`
anchors only at the start. -/
theorem C2_header_parser_amended :
    parse_class_header ("CS-1101-01 : Intro to Computing") =
      some { subject := "CS", catalog_number := "1101", section_number := "01",
             display_name := "CS-1101", long_title := "Intro to Computing" } ∧
    parse_class_header ("Intro Seminar") = none ∧
    (∀ header_text : String,
      parse_class_header header_text = none ↔
        ¬ prefixShape (pyStripList
          (header_text.toList.takeWhile (fun c => !(c == ':'))))) := by
  refine ⟨by decide, by decide, ?_⟩
  intro header_text
  rw [← matchHeaderCode_isSome_iff]
  simp only [parse_class_header]
  cases hm : matchHeaderCode (pyStripList
      (header_text.toList.takeWhile (fun c => !(c == ':')))) with
  | none => simp [hm]
  | some v =>
    obtain ⟨a, b, c⟩ := v
    simp [hm]

/-! ## C4: the term-offered decomposition -/

/-- C4 counterexample: `"Fall Summer Alternate Years"` contains `"Fall"` and
`"Summer"` and not `"Spring"`, yet the decomposition yields
`"FA, SU, ALT"`, not exactly `"FA, SU"` — the claim's instance omits the
`"Alternate Years"` condition. -/
theorem C4_counterexample :
    substr ("Fall") ("Fall Summer Alternate Years") = true ∧
    substr ("Summer") ("Fall Summer Alternate Years") = true ∧
    substr ("Spring") ("Fall Summer Alternate Years") = false ∧
    term_offered ("Fall Summer Alternate Years") = ("FA, SU, ALT") := by
  decide

/-- C4 (amended): each short token FA/SP/SU/ALT appears exactly when the
substring Fall/Spring/Summer/"Alternate Years" respectively occurs in the
input, joined with `", "` in that fixed order, independent of the order of
appearance; an input containing "Fall" and "Summer" but neither "Spring" nor
"Alternate Years" yields exactly `"FA, SU"`. -/
theorem C4_term_decomposition_amended :
    (∀ term : String, term_offered term = term_offered_spec term) ∧
    term_offered ("Fall, Summer") = ("FA, SU") ∧
    term_offered ("Summer and Fall") = ("FA, SU") := by
  refine ⟨?_, by decide, by decide⟩
  intro term
  cases h1 : substr ("Fall") term <;> cases h2 : substr ("Spring") term <;>
    cases h3 : substr ("Summer") term <;> cases h4 : substr ("Alternate Years") term <;>
    simp [term_offered, term_offered_spec, TERM_TABLE, h1, h2, h3, h4]

/-! ## C3: requirement-text keyword splitting -/

theorem seq_trunc_eq_spec (p : List Char) (s1 s2 : String)
    (h2 : 0 < s2.toList.length) (hno : NoOverlap s2.toList s1.toList) :
    truncAt s2.toList (truncAt s1.toList p) =
      (match minNatList ([s1, s2].filterMap (fun o => firstIdx o.toList p)) with
       | none => p
       | some m => p.take m) := by
  rw [truncAt_truncAt p h2 hno]
  cases hf1 : firstIdx s1.toList p <;> cases hf2 : firstIdx s2.toList p <;>
    simp only [String.toList] at hf1 hf2 <;>
    simp [List.filterMap_cons, hf1, hf2, minNatList]

theorem extract_eq_spec_coreq (text : String) :
    extract_requirement_text text kwCorequisite = extractSpec text kwCorequisite := by
  simp only [extract_requirement_text, extractSpec]
  cases hi : firstIdx kwCorequisite.toList text.toList with
  | none => rfl
  | some i =>
    have e2 : ¬ (kwPrerequisite = kwCorequisite) := by decide
    have e3 : ¬ (kwAntiRequisite = kwCorequisite) := by decide
    have hfil : List.filter (fun o => o != kwCorequisite)
        [kwCorequisite, kwPrerequisite, kwAntiRequisite] =
        [kwPrerequisite, kwAntiRequisite] := by decide
    simp only [REQ_KEYWORDS, List.foldl_cons, List.foldl_nil,
      if_neg e2, if_neg e3, eq_self_iff_true, if_true, hfil]
    rw [seq_trunc_eq_spec _ kwPrerequisite kwAntiRequisite (by decide) (by decide)]

theorem extract_eq_spec_prereq (text : String) :
    extract_requirement_text text kwPrerequisite = extractSpec text kwPrerequisite := by
  simp only [extract_requirement_text, extractSpec]
  cases hi : firstIdx kwPrerequisite.toList text.toList with
  | none => rfl
  | some i =>
    have e1 : ¬ (kwCorequisite = kwPrerequisite) := by decide
    have e3 : ¬ (kwAntiRequisite = kwPrerequisite) := by decide
    have hfil : List.filter (fun o => o != kwPrerequisite)
        [kwCorequisite, kwPrerequisite, kwAntiRequisite] =
        [kwCorequisite, kwAntiRequisite] := by decide
    simp only [REQ_KEYWORDS, List.foldl_cons, List.foldl_nil,
      if_neg e1, if_neg e3, eq_self_iff_true, if_true, hfil]
    rw [seq_trunc_eq_spec _ kwCorequisite kwAntiRequisite (by decide) (by decide)]

theorem extract_eq_spec_anti (text : String) :
    extract_requirement_text text kwAntiRequisite = extractSpec text kwAntiRequisite := by
  simp only [extract_requirement_text, extractSpec]
  cases hi : firstIdx kwAntiRequisite.toList text.toList with
  | none => rfl
  | some i =>
    have e1 : ¬ (kwCorequisite = kwAntiRequisite) := by decide
    have e2 : ¬ (kwPrerequisite = kwAntiRequisite) := by decide
    have hfil : List.filter (fun o => o != kwAntiRequisite)
        [kwCorequisite, kwPrerequisite, kwAntiRequisite] =
        [kwCorequisite, kwPrerequisite] := by decide
    simp only [REQ_KEYWORDS, List.foldl_cons, List.foldl_nil,
      if_neg e1, if_neg e2, eq_self_iff_true, if_true, hfil]
    rw [seq_trunc_eq_spec _ kwCorequisite kwPrerequisite (by decide) (by decide)]

/-- C3: extracting one keyword anchor's segment returns `None` when the keyword
is absent, and otherwise the text after the keyword truncated at whichever of
the other two keywords occurs earliest in the remaining text, stripped of
surrounding `":; "` characters and whitespace; the worked example and its
keyword-reordered variant isolate the same segments. -/
theorem C3_requirement_text_split :
    (∀ (text keyword : String), keyword ∈ REQ_KEYWORDS →
      extract_requirement_text text keyword = extractSpec text keyword) ∧
    (∀ (text keyword : String), substr keyword text = false →
      extract_requirement_text text keyword = none) ∧
    extract_requirement_text
      ("Prerequisite: MATH 1300; Corequisite: MATH 1301") kwPrerequisite =
        some ("MATH 1300") ∧
    extract_requirement_text
      ("Prerequisite: MATH 1300; Corequisite: MATH 1301") kwCorequisite =
        some ("MATH 1301") ∧
    extract_requirement_text
      ("Corequisite: MATH 1301; Prerequisite: MATH 1300") kwPrerequisite =
        some ("MATH 1300") ∧
    extract_requirement_text
      ("Corequisite: MATH 1301; Prerequisite: MATH 1300") kwCorequisite =
        some ("MATH 1301") := by
  refine ⟨?_, ?_, by decide, by decide, by decide, by decide⟩
  · intro text keyword hk
    simp only [REQ_KEYWORDS, List.mem_cons, List.not_mem_nil, or_false] at hk
    rcases hk with rfl | rfl | rfl
    · exact extract_eq_spec_coreq text
    · exact extract_eq_spec_prereq text
    · exact extract_eq_spec_anti text
  · intro text keyword h
    simp only [extract_requirement_text]
    cases hi : firstIdx keyword.toList text.toList with
    | none => rfl
    | some i =>
      exfalso
      simp only [String.toList] at hi
      simp [substr, String.toList, hi] at h

/-! ## C5: subject verification filtering -/

/-- C5: the per-subject loop processes a candidate further exactly when its
derived verification code equals the subject's short code; a candidate with a
different or absent code contributes no output row, wherever it sits in the
candidate list. -/
theorem C5_verification_filter :
    (∀ (α : Type) (detail : Candidate → Option α) (course_entries : List Candidate)
       (subject_code : String),
      process_subject_candidates detail course_entries subject_code =
        (course_entries.filter
          (fun c => c.verification == some subject_code)).filterMap detail) ∧
    (∀ (α : Type) (detail : Candidate → Option α) (l1 l2 : List Candidate)
       (c : Candidate) (subject_code : String),
      c.verification ≠ some subject_code →
      process_subject_candidates detail (l1 ++ c :: l2) subject_code =
        process_subject_candidates detail (l1 ++ l2) subject_code) ∧
    (∀ (α : Type) (detail : Candidate → Option α) (c : Candidate),
      c.verification = none →
      ∀ subject_code : String, process_subject_candidates detail [c] subject_code = []) := by
  refine ⟨?_, ?_, ?_⟩
  · intro α detail entries subj
    induction entries with
    | nil => rfl
    | cons c t ih =>
      by_cases hv : c.verification = some subj
      · simp [process_subject_candidates, List.filter_cons, List.filterMap_cons, hv] at ih ⊢
        cases hd : detail c <;> simp [hd, ih]
      · simp [process_subject_candidates, List.filter_cons, List.filterMap_cons, hv] at ih ⊢
        exact ih
  · intro α detail l1 l2 c subj hv
    simp [process_subject_candidates, List.filterMap_append, List.filterMap_cons, if_neg hv]
  · intro α detail c hv subj
    have : c.verification ≠ some subj := by simp [hv]
    simp [process_subject_candidates, List.filterMap_cons, if_neg this]

/-! ## C10: candidate extraction and positional pairing -/

theorem pairCandidates_length (ids : List (List Char × List Char)) (ns : List String) :
    ∀ i, (pairCandidates ids ns i).length = ids.length := by
  induction ids with
  | nil => intro i; rfl
  | cons hd t ih =>
    intro i
    obtain ⟨cid, onum⟩ := hd
    simp [pairCandidates, ih]

theorem pairCandidates_getElem? (ids : List (List Char × List Char)) (ns : List String) :
    ∀ (k i : Nat) (cid onum : List Char), ids[i]? = some (cid, onum) →
      (pairCandidates ids ns k)[i]? = some
        { course_id := String.mk cid, offer_num := String.mk onum,
          notification := ns[k + i]?,
          verification := (ns[k + i]?).bind deriveVerification } := by
  induction ids with
  | nil => intro k i cid onum h; simp at h
  | cons hd t ih =>
    intro k i cid onum h
    obtain ⟨cid0, onum0⟩ := hd
    cases i with
    | zero =>
      simp only [List.getElem?_cons_zero, Option.some.injEq, Prod.mk.injEq] at h
      obtain ⟨rfl, rfl⟩ := h
      simp [pairCandidates]
    | succ j =>
      simp only [List.getElem?_cons_succ] at h
      have hrec := ih (k + 1) j cid onum h
      rw [show k + 1 + j = k + (j + 1) from by omega] at hrec
      simp only [pairCandidates, List.getElem?_cons_succ]
      exact hrec

set_option maxRecDepth 8000 in
/-- C10: candidate extraction returns exactly one tuple per
`(course_id, offer_number)` pattern match, in document order; a candidate at
an index beyond the notification list carries a null notification string and a
null verification code, and such a candidate is excluded by the subject
verification filter for every subject code.  The sample body (two id matches,
one notification) exhibits the behaviour concretely. -/
theorem C10_candidate_pairing :
    (∀ html : String, (extract_course_ids html).length = (idsOf html).length) ∧
    (∀ (html : String) (i : Nat) (cid onum : List Char),
      (idsOf html)[i]? = some (cid, onum) →
      (extract_course_ids html)[i]? = some
        { course_id := String.mk cid, offer_num := String.mk onum,
          notification := (nsOf html)[i]?,
          verification := ((nsOf html)[i]?).bind deriveVerification }) ∧
    (∀ (html : String) (i : Nat) (c : Candidate),
      (nsOf html).length ≤ i → (extract_course_ids html)[i]? = some c →
      c.notification = none ∧ c.verification = none ∧
      ∀ (α : Type) (detail : Candidate → Option α) (subject_code : String),
        process_subject_candidates detail [c] subject_code = []) ∧
    (extract_course_ids sampleSearchHtml).length = 2 ∧
    (extract_course_ids sampleSearchHtml)[0]? = some
      { course_id := "123", offer_num := "1",
        notification := some ("CS-1101"), verification := some ("CS") } ∧
    (extract_course_ids sampleSearchHtml)[1]? = some
      { course_id := "456", offer_num := "2",
        notification := none, verification := none } := by
  refine ⟨?_, ?_, ?_, by rfl, by rfl, by rfl⟩
  · intro html
    exact pairCandidates_length (idsOf html) (nsOf html) 0
  · intro html i cid onum h
    have := pairCandidates_getElem? (idsOf html) (nsOf html) 0 i cid onum h
    simpa [Nat.zero_add] using this
  · intro html i c hlen h
    have hi : i < (idsOf html).length := by
      have h1 : i < (extract_course_ids html).length :=
        (List.getElem?_eq_some_iff.mp h).1
      simp only [extract_course_ids] at h1
      rwa [pairCandidates_length (idsOf html) (nsOf html) 0] at h1
    obtain ⟨cid, onum, hsome⟩ :
        ∃ cid onum, (idsOf html)[i]? = some (cid, onum) := by
      cases hx : (idsOf html)[i]? with
      | none =>
        rw [List.getElem?_eq_getElem hi] at hx
        cases hx
      | some pr => exact ⟨pr.1, pr.2, rfl⟩
    have hpair := pairCandidates_getElem? (idsOf html) (nsOf html) 0 i cid onum hsome
    have hns : (nsOf html)[0 + i]? = none := by
      rw [Nat.zero_add]
      exact List.getElem?_eq_none hlen
    rw [hns] at hpair
    have hc : c =
        { course_id := String.mk cid, offer_num := String.mk onum,
          notification := none, verification := none } := by
      have h2 : (extract_course_ids html)[i]? = some
          { course_id := String.mk cid, offer_num := String.mk onum,
            notification := none, verification := none } := by
        simpa [extract_course_ids] using hpair
      rw [h] at h2
      exact Option.some_injective _ h2
    subst hc
    refine ⟨rfl, rfl, ?_⟩
    intro α detail subject_code
    simp [process_subject_candidates]

/-! ## C6: record column sets -/

/-- C6 counterexample: a class-section page lacking the detail panel but with a
parsable header produces a record (the claim's "row"), and that record does
NOT contain the `school_code` key — `extract_class_details` returns the empty
dict when the panel div is absent (lines 74-76), so the four detail keys are
omitted rather than set to null. -/
theorem C6_counterexample :
    (scrape_class_section (FetchOutcome.ok
        { text := "x classSectionDetailDialog x",
          h1 := some ("CS-1101-01 : Intro to Computing"),
          detailRows := none }) 1000).map
      (fun r => decide (("school_code") ∈ r.map Prod.fst)) = some false := by
  decide

/-- C6 (amended): a class-section record built from a page WITH the detail
panel carries exactly the fixed ten-column key set (unrecognized or
unparsable values as explicit nulls); a record from a page WITHOUT the panel
carries only the six header-derived keys — the four detail keys are omitted
from the record and only materialize as nulls later, when the pandas
DataFrame serializes the accumulated rows. -/
theorem C6_fixed_columns_amended :
    (∀ (page : ClassSectionPage) (n : Nat) (r : List (String × Option String)),
      scrape_class_section (FetchOutcome.ok page) n = some r →
        ((page.detailRows = none → r.map Prod.fst = classHeaderKeys) ∧
         (page.detailRows ≠ none → r.map Prod.fst = classAllKeys))) ∧
    (∀ rows : List (List String),
      (extract_class_details (some rows)).map Prod.fst =
        [("school_code"), ("career_code"), ("component_code"), ("units_earned")]) := by
  constructor
  · intro page n r h
    simp only [scrape_class_section] at h
    split at h
    · cases h
    · split at h
      · cases h
      · rename_i h1text hh1
        split at h
        · cases h
        · rename_i parsed hp
          simp only [Option.some.injEq] at h
          subst h
          constructor
          · intro hd
            simp [hd, extract_class_details, classHeaderKeys]
          · intro hd
            cases hdr : page.detailRows with
            | none => exact absurd hdr hd
            | some rows =>
              simp [hdr, extract_class_details, classAllKeys, classHeaderKeys]
  · intro rows
    simp [extract_class_details]

/-! ## C8: per-id error absorption in the class-section scan -/

/-- C8: scraping one class section is total — a transport error or in-flight
exception (`FetchOutcome.err`), a body without the marker substring, a missing
heading, and a failed header parse each yield nothing; a produced record
always carries the six header-derived fields; and an id that yields nothing
contributes no row while the scan of the remaining ids is unchanged, so the
range scan never aborts.  A concrete successful page shows the scrape can
produce a record. -/
theorem C8_per_id_error_absorption :
    (∀ n : Nat, scrape_class_section FetchOutcome.err n = none) ∧
    (∀ (page : ClassSectionPage) (n : Nat),
      substr ("classSectionDetailDialog") page.text = false →
      scrape_class_section (FetchOutcome.ok page) n = none) ∧
    (∀ (page : ClassSectionPage) (n : Nat),
      page.h1 = none → scrape_class_section (FetchOutcome.ok page) n = none) ∧
    (∀ (page : ClassSectionPage) (n : Nat) (h1text : String),
      page.h1 = some h1text → parse_class_header (pyStrip h1text) = none →
      scrape_class_section (FetchOutcome.ok page) n = none) ∧
    (∀ (fetch : FetchOutcome) (n : Nat) (r : List (String × Option String)),
      scrape_class_section fetch n = some r →
      ∀ k ∈ classHeaderKeys, k ∈ r.map Prod.fst) ∧
    (∀ (fetch : Nat → FetchOutcome) (l1 l2 : List Nat) (n : Nat),
      scrape_class_section (fetch n) n = none →
      scanClassRange fetch (l1 ++ n :: l2) = scanClassRange fetch (l1 ++ l2)) ∧
    (scrape_class_section (FetchOutcome.ok
        { text := "classSectionDetailDialog",
          h1 := some ("CS-1101-01 : Intro to Computing"),
          detailRows := some [[("School:"), ("Law School")], [("Hours"), ("3")]] })
        1000).isSome = true := by
  refine ⟨?_, ?_, ?_, ?_, ?_, ?_, by decide⟩
  · intro n
    rfl
  · intro page n h
    simp [scrape_class_section, h]
  · intro page n h
    simp [scrape_class_section, h]
  · intro page n h1text hh1 hp
    simp [scrape_class_section, hh1, hp]
  · intro fetch n r h
    cases fetch with
    | err => cases h
    | ok page =>
      simp only [scrape_class_section] at h
      split at h
      · cases h
      · split at h
        · cases h
        · rename_i h1text hh1
          split at h
          · cases h
          · rename_i parsed hp
            simp only [Option.some.injEq] at h
            subst h
            intro k hk
            simp only [classHeaderKeys, List.mem_cons, List.not_mem_nil, or_false] at hk
            rcases hk with rfl | rfl | rfl | rfl | rfl | rfl <;> simp
  · intro fetch l1 l2 n h
    simp [scanClassRange, List.filterMap_append, List.filterMap_cons, h]
